import Mathlib

/-!
Shallow embedding of the SSR HTTP plugin (`src/SSR/plugins/1.js`):
the `HttpClient` request pipeline (interceptors, cache, retry/timeout),
the `SSRDataStore` hydration bridge, and the plugin `install` wiring.

JavaScript `Map`s and plain objects are modelled as insertion-ordered
association lists (`StrMap`); `Map.set` / object-spread overwrite a
colliding key in place and append a fresh key at the end, matching JS
key-order semantics.  `Date.now()` is an explicit `Nat` parameter.
Console logging is ignored; instead the embedding returns a ghost trace
(`Ev`) of observable effects: network dispatches and cache reads/writes.
-/

namespace SSRHttp

/-- Insertion-ordered string-keyed map (JS `Map` / plain object). -/
abbrev StrMap (α : Type) := List (String × α)

/-- JS `Map.get` / property read: first (unique) binding for the key. -/
def mapGet {α : Type} : StrMap α → String → Option α
  | [], _ => none
  | (k, v) :: rest, key => if k = key then some v else mapGet rest key

/-- JS `Map.set` / property write: overwrite in place, else append. -/
def mapSet {α : Type} : StrMap α → String → α → StrMap α
  | [], key, val => [(key, val)]
  | (k, v) :: rest, key, val =>
    if k = key then (key, val) :: rest else (k, v) :: mapSet rest key val

/-- JS `Map.delete`: remove the binding for the key, if any. -/
def mapErase {α : Type} : StrMap α → String → StrMap α
  | [], _ => []
  | (k, v) :: rest, key => if k = key then rest else (k, v) :: mapErase rest key

/-- JS object spread `{...a, ...b}`: fold `b`'s entries into `a` with
`mapSet` (collisions keep `a`'s position but take `b`'s value). -/
def jsSpread {α : Type} (a b : StrMap α) : StrMap α :=
  b.foldl (fun acc p => mapSet acc p.1 p.2) a

/-- JS `String.prototype.includes`: substring containment. -/
def jsIncludes (s sub : String) : Bool :=
  decide (sub.toList <:+: s.toList)

/-- `JSON.stringify` applied to a string value (escaping not modelled;
the claims never depend on escape sequences). -/
def jsonQuote (s : String) : String := "\x22" ++ s ++ "\x22"

/-- `RequestConfig` after `HttpClient.request` builds it (lines 201-209):
every field of the per-call options object rides along the spread. -/
structure Config where
  method : String
  headers : StrMap String
  url : Option String := none
  body : Option String := none
  cache : Option Bool := none
  timestamp : Option Bool := none
  cacheTimeout : Option Nat := none
deriving DecidableEq, Repr

/-- Decoded response payload: `response.json()` vs `response.text()`
(line 229-236); JSON parsing itself is abstracted to the raw body. -/
inductive DataVal where
  | json (body : String)
  | text (body : String)
deriving DecidableEq, Repr

/-- The `Result` object assembled at lines 238-244. -/
structure ResultObj where
  data : DataVal
  status : Nat
  statusText : String
  headers : StrMap String
  config : Config
deriving DecidableEq, Repr

/-- Values thrown in the pipeline.  JS lets any value be thrown:
`abortError` is the DOMException from the timeout abort (name
`AbortError`), `errMsg` a plain `Error` (HTTP failures, transport
rejections), `typeError` a `TypeError` (e.g. a property read on
`null`), `statusObj` an object carrying `message` and `status`,
and `cfgVal`/`resVal` non-error values (a config or result object)
thrown by interceptor handlers. -/
inductive Thrown where
  | abortError (msg : String)
  | errMsg (msg : String)
  | typeError (msg : String)
  | statusObj (msg : String) (status : Nat)
  | cfgVal (c : Config)
  | resVal (r : Option ResultObj)
deriving DecidableEq, Repr

/-- The `.message` property of a thrown value (absent on non-errors). -/
def Thrown.message : Thrown → Option String
  | .abortError m => some m
  | .errMsg m => some m
  | .typeError m => some m
  | .statusObj m _ => some m
  | .cfgVal _ => none
  | .resVal _ => none

/-- `error.status || 0` (line 267): only `statusObj` carries a status. -/
def Thrown.statusOf : Thrown → Nat
  | .statusObj _ s => s
  | _ => 0

/-- `HttpClient.shouldRetry` (lines 174-179):
`error.name === 'AbortError' || error.message.includes('fetch') ||
error.message.includes('5')`. -/
def shouldRetry (e : Thrown) : Bool :=
  match e with
  | .abortError _ => true
  | .errMsg m => jsIncludes m "fetch" || jsIncludes m "5"
  | .typeError m => jsIncludes m "fetch" || jsIncludes m "5"
  | .statusObj m _ => jsIncludes m "fetch" || jsIncludes m "5"
  | .cfgVal _ => false
  | .resVal _ => false

/-- An interceptor registration: the `{ fulfilled, rejected }` pair
pushed by `addRequestInterceptor` / `addResponseInterceptor`
(lines 36-47).  `α` is the chained value type, `ε` the thrown-value
type; a handler returning `.ok v` models a normal return of `v`,
`.error e` models a throw/rejection. -/
structure Interceptor (α ε : Type) where
  fulfilled : Option (α → Except ε α) := none
  rejected : Option (ε → Except ε ε) := none

/-- `processRequestInterceptors` / `processResponseInterceptors`
(lines 54-71 and 78-95, byte-for-byte the same control flow): fold the
stages left to right; a stage without `fulfilled` passes the value
through; when `fulfilled` throws, `throw await interceptor.rejected(error)`
throws whatever the same stage's `rejected` produces (its return value,
or its own rejection), else rethrows the original error. -/
def processInterceptors {α ε : Type} : List (Interceptor α ε) → α → Except ε α
  | [], x => .ok x
  | i :: rest, x =>
    match i.fulfilled with
    | none => processInterceptors rest x
    | some f =>
      match f x with
      | .ok x2 => processInterceptors rest x2
      | .error e =>
        .error (match i.rejected with
          | some r => (match r e with
            | .ok v => v
            | .error e2 => e2)
          | none => e)

/-- `HttpClient` construction (lines 11-28).  The JS `||` defaults are
baked in as field defaults (a falsy option falls back, which for the
numeric options means 0 cannot be configured). -/
structure ClientCfg where
  baseURL : String := ""
  timeout : Nat := 10000
  headers : StrMap String := []
  cacheTimeout : Nat := 300000
  retryCount : Nat := 3
  retryDelay : Nat := 1000
deriving DecidableEq, Repr

/-- The per-call options object handed to `HttpClient.request`.  Fields
absent from the JS object are `none`. -/
structure Options where
  method : Option String := none
  headers : Option (StrMap String) := none
  url : Option String := none
  body : Option String := none
  cache : Option Bool := none
  timestamp : Option Bool := none
  cacheTimeout : Option Nat := none
deriving DecidableEq, Repr

/-- A stored cache entry `{ data, timestamp }` (lines 128-133).  `data`
is the processed result, which an interceptor could have mapped to
`null`, hence `Option`. -/
structure CacheEntry where
  data : Option ResultObj
  timestamp : Nat
deriving DecidableEq, Repr

/-- The `HttpClient.cache` map. -/
abbrev CacheMap := StrMap CacheEntry

/-- `generateCacheKey(url, options)` (lines 103-107):
`` `${options.method || 'GET'}:${url}:${options.body ? JSON.stringify(options.body) : ''}` ``. -/
def generateCacheKey (url : String) (options : Config) : String :=
  let method := if options.method = "" then "GET" else options.method
  let body := match options.body with
    | some b => if b = "" then "" else jsonQuote b
    | none => ""
  method ++ ":" ++ url ++ ":" ++ body

/-- `getCache(cacheKey)` (lines 114-121) at time `now` with the store
TTL `cacheTimeout`: a fresh entry returns its data and leaves the map
untouched; otherwise `this.cache.delete(cacheKey)` runs and `null` is
returned.  The pair is (returned value, cache map afterwards). -/
def getCache (cache : CacheMap) (cacheKey : String) (now : Nat)
    (cacheTimeout : Nat) : Option (Option ResultObj) × CacheMap :=
  match mapGet cache cacheKey with
  | some cached =>
    if now - cached.timestamp < cacheTimeout then (some cached.data, cache)
    else (none, mapErase cache cacheKey)
  | none => (none, mapErase cache cacheKey)

/-- `setCache(cacheKey, data)` (lines 128-133): always overwrites,
timestamp = now. -/
def setCache (cache : CacheMap) (cacheKey : String) (data : Option ResultObj)
    (now : Nat) : CacheMap :=
  mapSet cache cacheKey ⟨data, now⟩

/-- Outcome of one `fetch` under the per-attempt timeout: a response,
a transport rejection, or an attempt exceeding the deadline (aborted). -/
inductive FetchOut where
  | resp (status : Nat) (statusText : String) (headers : StrMap String) (body : String)
  | reject (t : Thrown)
  | hang
deriving Repr

/-- The raw `fetch` `Response` before body decoding. -/
structure RespObj where
  status : Nat
  statusText : String
  headers : StrMap String
  body : String
deriving DecidableEq, Repr

/-- Ghost trace of observable effects of one `request` call. -/
inductive Ev where
  | fetch (url : String) (k : Nat)
  | cacheRead (key : String)
  | cacheWrite (key : String)
deriving DecidableEq, Repr

/-- One attempt of `requestWithRetry`'s try block (lines 143-158):
dispatch `fetch`; a hang is aborted (`AbortError`); a non-ok response
(`response.ok` is status 200-299) throws
`` new Error(`HTTP ${status}: ${statusText}`) ``. -/
def attemptOf (transport : String → Nat → FetchOut) (url : String)
    (k : Nat) : Except Thrown RespObj :=
  match transport url k with
  | .resp status statusText headers body =>
    if 200 ≤ status ∧ status < 300 then .ok ⟨status, statusText, headers, body⟩
    else .error (.errMsg ("HTTP " ++ toString status ++ ": " ++ statusText))
  | .reject t => .error t
  | .hang => .error (.abortError "This operation was aborted")

/-- Recursion core of `requestWithRetry` (lines 142-167) with attempt
counter `k`: on failure, retry while `retryCount < this.retryCount &&
this.shouldRetry(error)`, else rethrow; the ghost trace records each
dispatched attempt.  The JS recursion terminates because `k` climbs
toward `rc`; to keep the definition kernel-computable the remaining
budget `rc - k` is passed as a structural `fuel` argument, and the
`fuel = 0` arm inside the guard is unreachable whenever `fuel = rc - k`
(the guard `k < rc` then forces `fuel > 0`). -/
def requestWithRetryGo (rc : Nat) (transport : String → Nat → FetchOut)
    (url : String) : Nat → Nat → Except Thrown RespObj × List Ev
  | fuel, k =>
    match attemptOf transport url k with
    | .ok r => (.ok r, [.fetch url k])
    | .error e =>
      if k < rc ∧ shouldRetry e = true then
        match fuel with
        | fuel2 + 1 =>
          let rest := requestWithRetryGo rc transport url fuel2 (k + 1)
          (rest.1, .fetch url k :: rest.2)
        | 0 => (.error e, [.fetch url k])
      else (.error e, [.fetch url k])

/-- `requestWithRetry(url, options, retryCount = k)` (lines 142-167). -/
def requestWithRetry (rc : Nat) (transport : String → Nat → FetchOut)
    (url : String) (k : Nat) : Except Thrown RespObj × List Ev :=
  requestWithRetryGo rc transport url (rc - k) k

/-- The `NormalizedError` object thrown at lines 265-270:
`{ message: error.message, status: error.status || 0, config,
originalError: error }`. -/
structure NormalizedError where
  message : Option String
  status : Nat
  config : Config
  originalError : Thrown
deriving DecidableEq, Repr

/-- What `request` raises to its caller: either a value thrown raw
(request-interceptor rejection at line 212, or a throw out of the
response chain re-run in the catch block, line 262) or the
`NormalizedError` of lines 265-270. -/
inductive Raised where
  | thrown (t : Thrown)
  | normalized (n : NormalizedError)
deriving DecidableEq, Repr

/-- `url.startsWith('http') ? url : `${this.baseURL}${url}`` (line 198). -/
def resolveFullUrl (baseURL url : String) : String :=
  if url.startsWith "http" then url else baseURL ++ url

/-- The config build at lines 201-209:
`{ method:'GET', headers: {'Content-Type':…, ...this.headers,
...options.headers}, ...options }`.  The trailing `...options` spread
overwrites the `headers` property with `options.headers` whenever the
per-call options carry one. -/
def buildConfig (client : ClientCfg) (o : Options) : Config :=
  let merged := jsSpread (jsSpread [("Content-Type", "application/json")]
    client.headers) (o.headers.getD [])
  { method := o.method.getD "GET"
    headers := o.headers.getD merged
    url := o.url
    body := o.body
    cache := o.cache
    timestamp := o.timestamp
    cacheTimeout := o.cacheTimeout }

/-- `contentType && contentType.includes('application/json')` (line 232). -/
def ctIncludesJson : Option String → Bool
  | some ct => jsIncludes ct "application/json"
  | none => false

/-- Body decoding and `Result` assembly (lines 229-244): decode as JSON
when the `content-type` header contains `application/json`, else as
text, and build `{ data, status, statusText, headers, config }`. -/
def mkResult (response : RespObj) (config : Config) : ResultObj :=
  { data := if ctIncludesJson (mapGet response.headers "content-type")
      then DataVal.json response.body else DataVal.text response.body
    status := response.status
    statusText := response.statusText
    headers := response.headers
    config := config }

/-- The cache consultation at lines 214-222: for a GET with caching not
disabled, look up `generateCacheKey(fullUrl, config)`; the first
component is the truthy cached response (if any), the second the cache
map after the lazy eviction inside `getCache`. -/
def cacheReadStep (client : ClientCfg) (config : Config) (fullUrl : String)
    (cache : CacheMap) (now : Nat) : Option ResultObj × CacheMap × List Ev :=
  if config.method = "GET" ∧ config.cache ≠ some false then
    let cacheKey := generateCacheKey fullUrl config
    let gc := getCache cache cacheKey now client.cacheTimeout
    (gc.1.join, gc.2, [.cacheRead cacheKey])
  else (none, cache, [])

/-- The catch block at lines 257-271: run the response interceptor
chain **with `null`** (not the error); when that chain itself throws,
the thrown value propagates raw to the caller (line 262), else the
`NormalizedError` is thrown. -/
def catchPath (respInts : List (Interceptor (Option ResultObj) Thrown))
    (config : Config) (err : Thrown) : Raised :=
  match processInterceptors respInts (none : Option ResultObj) with
  | .error interceptorError => .thrown interceptorError
  | .ok _ => .normalized ⟨err.message, err.statusOf, config, err⟩

/-- `HttpClient.request(url, options)` (lines 196-272): resolve the full
URL from the caller's path, build the config, run the request
interceptor chain (a rejection propagates raw — it happens before the
try block), consult the cache for GET, else dispatch through
`requestWithRetry`, decode the body by content type, assemble the
`Result`, run the response interceptor chain, and cache a cacheable GET
success.  Returns (outcome, cache map afterwards, ghost trace). -/
def request (client : ClientCfg)
    (reqInts : List (Interceptor Config Thrown))
    (respInts : List (Interceptor (Option ResultObj) Thrown))
    (transport : String → Nat → FetchOut)
    (url : String) (options : Options)
    (cache : CacheMap) (now : Nat) :
    Except Raised (Option ResultObj) × CacheMap × List Ev :=
  let fullUrl := resolveFullUrl client.baseURL url
  match processInterceptors reqInts (buildConfig client options) with
  | .error e => (.error (.thrown e), cache, [])
  | .ok config =>
    match cacheReadStep client config fullUrl cache now with
    | (some cachedResponse, cache1, tr) => (.ok (some cachedResponse), cache1, tr)
    | (none, cache1, tr) =>
      match requestWithRetry client.retryCount transport fullUrl 0 with
      | (.error err, fetchTr) =>
        (.error (catchPath respInts config err), cache1, tr ++ fetchTr)
      | (.ok response, fetchTr) =>
        match processInterceptors respInts (some (mkResult response config)) with
        | .error e =>
          (.error (catchPath respInts config e), cache1, tr ++ fetchTr)
        | .ok processedResult =>
          if config.method = "GET" ∧ config.cache ≠ some false then
            let cacheKey := generateCacheKey fullUrl config
            (.ok processedResult,
             setCache cache1 cacheKey processedResult now,
             tr ++ fetchTr ++ [.cacheWrite cacheKey])
          else (.ok processedResult, cache1, tr ++ fetchTr)

/-- `SSRDataStore.set` (lines 315-317): `this.store.set(key, data)`. -/
def storeSet {α : Type} (s : StrMap α) (key : String) (data : α) : StrMap α :=
  mapSet s key data

/-- `SSRDataStore.get` (lines 324-326). -/
def storeGet {α : Type} (s : StrMap α) (key : String) : Option α :=
  mapGet s key

/-- `SSRDataStore.has` (lines 333-335). -/
def storeHas {α : Type} (s : StrMap α) (key : String) : Bool :=
  (mapGet s key).isSome

/-- `SSRDataStore.getState` (lines 341-343): `Object.fromEntries(this.store)`
— a plain object with the map's entries in insertion order, which in
this model is the association list itself. -/
def getState {α : Type} (s : StrMap α) : StrMap α := s

/-- `SSRDataStore.setState` (lines 349-355): `Object.entries(state)
.forEach(([key, value]) => this.store.set(key, value))` — merge the flat
object's entries into the store in order, overwriting on collision. -/
def setState {α : Type} (s : StrMap α) (state : StrMap α) : StrMap α :=
  state.foldl (fun acc p => mapSet acc p.1 p.2) s

/-- A fresh `new SSRDataStore()` (lines 305-308): empty map. -/
def freshStore {α : Type} : StrMap α := []

/-- Heap of allocated `SSRDataStore` instances, addressed by allocation
index; needed to model object identity across plugin installations. -/
abbrev Heap (α : Type) := List (StrMap α)

/-- Module load of `src/SSR/plugins/1.js`: line 366 runs
`const ssrDataStore = new SSRDataStore()` exactly once, so the module
heap holds a single, empty store. -/
def moduleHeap {α : Type} : Heap α := [freshStore]

/-- The module-level binding `ssrDataStore` (line 366): a reference to
the store allocated at module load. -/
def ssrDataStoreRef : Nat := 0

/-- The options object handed to `httpPlugin.install` (lines 375-382). -/
structure InstallOptions where
  baseURL : Option String := none
  timeout : Option Nat := none
  headers : Option (StrMap String) := none
  cacheTimeout : Option Nat := none
  retryCount : Option Nat := none
  retryDelay : Option Nat := none
deriving DecidableEq, Repr

/-- The `HttpClient` that `install` constructs (lines 377-382);
`{baseURL: options.baseURL || '/api', timeout: options.timeout || 10000,
headers: options.headers || {}, ...options}` then the constructor's own
`||` defaults. -/
def installHttpClient (options : InstallOptions) : ClientCfg :=
  { baseURL := options.baseURL.getD "/api"
    timeout := options.timeout.getD 10000
    headers := options.headers.getD []
    cacheTimeout := options.cacheTimeout.getD 300000
    retryCount := options.retryCount.getD 3
    retryDelay := options.retryDelay.getD 1000 }

/-- What one `httpPlugin.install(app, options)` mounts on the app
(lines 388-393): a fresh `HttpClient`, and `$ssrData` — which is always
the module-level `ssrDataStore` binding, never a fresh store. -/
structure Installed where
  http : ClientCfg
  ssrData : Nat
deriving DecidableEq, Repr

/-- `httpPlugin.install` (lines 375-403), restricted to what it mounts;
`app.provide('$ssrData', ssrDataStore)` hands out the module-level
reference. -/
def installPlugin (options : InstallOptions) : Installed :=
  { http := installHttpClient options, ssrData := ssrDataStoreRef }

/-- `set` through a mounted `$ssrData` reference into the heap. -/
def heapStoreSet {α : Type} (h : Heap α) (r : Nat) (key : String)
    (data : α) : Heap α :=
  h.set r (storeSet (h.getD r freshStore) key data)

/-- `get` through a mounted `$ssrData` reference. -/
def heapStoreGet {α : Type} (h : Heap α) (r : Nat) (key : String) : Option α :=
  storeGet (h.getD r freshStore) key

/-- `has` through a mounted `$ssrData` reference. -/
def heapStoreHas {α : Type} (h : Heap α) (r : Nat) (key : String) : Bool :=
  storeHas (h.getD r freshStore) key

/-- The default response interceptor registered by
`setupDefaultInterceptors` (lines 443-466).  Its `fulfilled` handler
reads `response.status` for the log line, which on the `null` the
failure path passes in throws
`TypeError: Cannot read properties of null (reading 'status')`;
its `rejected` handler performs logging side effects and returns
`Promise.reject(error)`, i.e. rethrows the error it was given. -/
def defaultResponseInterceptor : Interceptor (Option ResultObj) Thrown :=
  { fulfilled := some fun response =>
      match response with
      | some r => .ok (some r)
      | none => .error (.typeError
          "Cannot read properties of null (reading 'status')")
    rejected := some fun e => .error e }

/-! ### Concrete instances used by the claim theorems and witnesses -/

/-- A transport whose every attempt yields HTTP 405 (client-class). -/
def c2transport405 : String → Nat → FetchOut :=
  fun _ _ => .resp 405 "Method Not Allowed" [] ""

/-- The substitute config a recovery handler returns in the C3 scenario. -/
def c3SubstituteConfig : Config :=
  { method := "GET", headers := [("X-Recovered", "yes")] }

/-- An interceptor stage whose `fulfilled` throws and whose `rejected`
handler returns (not rethrows) a substitute config value. -/
def c3FailingStage : Interceptor Config Thrown :=
  { fulfilled := some fun _ => .error (.errMsg "boom")
    rejected := some fun _ => .ok (.cfgVal c3SubstituteConfig) }

/-- A pass-through stage standing for the remaining chain after the
failing stage. -/
def c3PassStage : Interceptor Config Thrown :=
  { fulfilled := some fun c => .ok c }

/-- Initial config for the C3 scenario. -/
def c3StartConfig : Config := { method := "GET", headers := [] }

/-- Modelled from the spec: the header map C4 claims is dispatched —
"the merge of the client's default headers with the per-call headers,
where a per-call entry wins on a colliding key and every default header
absent from the per-call map is preserved". -/
def specMergedHeaders (defaults percall : StrMap String) : StrMap String :=
  jsSpread defaults percall

/-- Client with one default header, for the C4 scenario. -/
def c4client : ClientCfg := { headers := [("X-Api-Version", "1")] }

/-- Per-call options carrying one header, for the C4 scenario. -/
def c4options : Options := { headers := some [("Accept", "text/plain")] }

/-- Modelled from the spec: the TTL C5 claims governs a lookup — "the
per-request TTL override when one is supplied, otherwise the store's
default". -/
def specApplicableTTL (storeDefault : Nat) (perRequest : Option Nat) : Nat :=
  perRequest.getD storeDefault

/-- A previously cached result, for the C5 scenario. -/
def c5CachedResult : ResultObj :=
  { data := .text "cached", status := 200, statusText := "OK",
    headers := [], config := { method := "GET", headers := [] } }

/-- Client with a 5000 ms store TTL, for the C5 scenario. -/
def c5Client : ClientCfg := { baseURL := "http://a", cacheTimeout := 5000 }

/-- A cache holding the C5 entry, written at time 0. -/
def c5Cache : CacheMap := [("GET:http://a/u:", ⟨some c5CachedResult, 0⟩)]

/-- Per-call options supplying a 1000 ms TTL override, for C5. -/
def c5Options : Options := { cacheTimeout := some 1000 }

/-- A transport answering HTTP 404 on every attempt, for the C1 scenario. -/
def c1transport404 : String → Nat → FetchOut :=
  fun _ _ => .resp 404 "Not Found" [] ""

/-- Client for the C1 scenario. -/
def c1client : ClientCfg := { baseURL := "http://a" }

/-- A transport answering HTTP 503 on every attempt. -/
def c7transportFail : String → Nat → FetchOut :=
  fun _ _ => .resp 503 "Service Unavailable" [] ""

/-- The error every 503 attempt throws. -/
def c7errF : Nat → Thrown := fun _ => .errMsg "HTTP 503: Service Unavailable"

/-- A transport failing with 503 on attempts 0 and 1, succeeding on
attempt 2. -/
def c7transportRecover : String → Nat → FetchOut := fun _ k =>
  if k < 2 then .resp 503 "Service Unavailable" [] "" else .resp 200 "OK" [] "ok"

/-- The successful response of `c7transportRecover`. -/
def c7okResp : RespObj :=
  { status := 200, statusText := "OK", headers := [], body := "ok" }

/-- A request interceptor that rewrites `config.url` (standing for the
default interceptor's cache-busting `_t` rewrite of lines 421-425). -/
def c10urlRewriteStage : Interceptor Config Thrown :=
  { fulfilled := some fun c => .ok { c with url := some "http://elsewhere/changed" } }

/-- Client for the C10 witness. -/
def c10client : ClientCfg := { baseURL := "http://a" }

/-- The config produced by the C10 witness chain. -/
def c10cfgAfter : Config :=
  { method := "GET", headers := [("Content-Type", "application/json")],
    url := some "http://elsewhere/changed" }

/-- Client for the C8 scenario (TTL 5000 ms). -/
def c8client : ClientCfg := { baseURL := "http://a", cacheTimeout := 5000 }

/-- A transport answering 200 `"hello"` on every attempt. -/
def c8transport : String → Nat → FetchOut :=
  fun _ _ => .resp 200 "OK" [] "hello"

/-- The config the C8 pipeline produces (no interceptors). -/
def c8config : Config :=
  { method := "GET", headers := [("Content-Type", "application/json")] }

/-- The result the first C8 call caches. -/
def c8res : ResultObj :=
  { data := .text "hello", status := 200, statusText := "OK",
    headers := [], config := c8config }

/-- The cache after the first C8 call (written at time 100). -/
def c8cache1 : CacheMap := [("GET:http://a/u:", ⟨some c8res, 100⟩)]

/-! ### Map lemmas -/

theorem mapGet_mapSet_self {α : Type} (m : StrMap α) (k : String) (v : α) :
    mapGet (mapSet m k v) k = some v := by
  induction m with
  | nil => simp [mapSet, mapGet]
  | cons p rest ih =>
    obtain ⟨a, b⟩ := p
    by_cases h : a = k <;> simp [mapSet, mapGet, h, ih]

theorem mapSet_of_get_none {α : Type} (m : StrMap α) (k : String) (v : α)
    (h : mapGet m k = none) : mapSet m k v = m ++ [(k, v)] := by
  induction m with
  | nil => simp [mapSet]
  | cons p rest ih =>
    obtain ⟨a, b⟩ := p
    by_cases hak : a = k
    · simp [mapGet, hak] at h
    · simp [mapGet, hak] at h
      simp [mapSet, hak, ih h]

theorem mapGet_append {α : Type} (a b : StrMap α) (key : String) :
    mapGet (a ++ b) key =
      match mapGet a key with
      | some v => some v
      | none => mapGet b key := by
  induction a with
  | nil => simp [mapGet]
  | cons p rest ih =>
    obtain ⟨x, y⟩ := p
    by_cases h : x = key <;> simp [mapGet, h, ih]

/-! ### Interceptor chain lemmas -/

theorem processInterceptors_append {α ε : Type} (pre rest : List (Interceptor α ε))
    (x : α) :
    processInterceptors (pre ++ rest) x =
      match processInterceptors pre x with
      | .ok y => processInterceptors rest y
      | .error e => .error e := by
  induction pre generalizing x with
  | nil => simp [processInterceptors]
  | cons i is ih =>
    simp only [List.cons_append, processInterceptors]
    cases hf : i.fulfilled with
    | none => exact ih x
    | some f =>
      dsimp only
      cases hx : f x with
      | ok x2 => dsimp only; exact ih x2
      | error e => dsimp only

/-! ### Retry controller step lemmas -/

theorem requestWithRetry_ok (rc : Nat) (t : String → Nat → FetchOut)
    (u : String) (k : Nat) (r : RespObj) (h : attemptOf t u k = .ok r) :
    requestWithRetry rc t u k = (.ok r, [.fetch u k]) := by
  unfold requestWithRetry requestWithRetryGo
  rw [h]

theorem requestWithRetry_stop (rc : Nat) (t : String → Nat → FetchOut)
    (u : String) (k : Nat) (e : Thrown) (h : attemptOf t u k = .error e)
    (hs : ¬(k < rc ∧ shouldRetry e = true)) :
    requestWithRetry rc t u k = (.error e, [.fetch u k]) := by
  unfold requestWithRetry requestWithRetryGo
  rw [h]
  dsimp only
  rw [if_neg hs]

theorem requestWithRetry_retry (rc : Nat) (t : String → Nat → FetchOut)
    (u : String) (k : Nat) (e : Thrown) (h : attemptOf t u k = .error e)
    (hs : k < rc ∧ shouldRetry e = true) :
    requestWithRetry rc t u k =
      ((requestWithRetry rc t u (k + 1)).1,
       .fetch u k :: (requestWithRetry rc t u (k + 1)).2) := by
  have hf : rc - k = (rc - (k + 1)) + 1 := by omega
  unfold requestWithRetry
  conv_lhs => rw [requestWithRetryGo]
  rw [h]
  dsimp only
  rw [if_pos hs, hf]

theorem requestWithRetryGo_trace_fetches (rc : Nat) (t : String → Nat → FetchOut)
    (u : String) :
    ∀ fuel k, ∀ ev ∈ (requestWithRetryGo rc t u fuel k).2, ∃ j, ev = Ev.fetch u j := by
  intro fuel
  induction fuel with
  | zero =>
    intro k ev hev
    unfold requestWithRetryGo at hev
    cases hA : attemptOf t u k with
    | ok r => rw [hA] at hev; simp at hev; exact ⟨k, hev⟩
    | error e =>
      rw [hA] at hev
      dsimp only at hev
      by_cases hc : k < rc ∧ shouldRetry e = true
      · rw [if_pos hc] at hev; simp at hev; exact ⟨k, hev⟩
      · rw [if_neg hc] at hev; simp at hev; exact ⟨k, hev⟩
  | succ fuel ih =>
    intro k ev hev
    unfold requestWithRetryGo at hev
    cases hA : attemptOf t u k with
    | ok r => rw [hA] at hev; simp at hev; exact ⟨k, hev⟩
    | error e =>
      rw [hA] at hev
      dsimp only at hev
      by_cases hc : k < rc ∧ shouldRetry e = true
      · rw [if_pos hc] at hev
        simp at hev
        rcases hev with hev | hev
        · exact ⟨k, hev⟩
        · exact ih (k + 1) ev hev
      · rw [if_neg hc] at hev; simp at hev; exact ⟨k, hev⟩

theorem requestWithRetry_trace_fetches (rc : Nat) (t : String → Nat → FetchOut)
    (u : String) (k : Nat) :
    ∀ ev ∈ (requestWithRetry rc t u k).2, ∃ j, ev = Ev.fetch u j := by
  intro ev hev
  exact requestWithRetryGo_trace_fetches rc t u (rc - k) k ev hev

theorem requestWithRetry_all_fail (rc : Nat) (t : String → Nat → FetchOut)
    (u : String) (errF : Nat → Thrown)
    (hall : ∀ j, j ≤ rc → attemptOf t u j = .error (errF j))
    (hretry : ∀ j, j ≤ rc → shouldRetry (errF j) = true) :
    ∀ n k, k + n = rc →
      requestWithRetry rc t u k =
        (.error (errF rc), (List.range' k (n + 1)).map (fun j => Ev.fetch u j)) := by
  intro n
  induction n with
  | zero =>
    intro k hk
    have hk2 : k = rc := by omega
    rw [requestWithRetry_stop rc t u k (errF k) (hall k (by omega))
      (by simp [hk2])]
    rw [hk2]
    simp [List.range']
  | succ n ih =>
    intro k hk
    rw [requestWithRetry_retry rc t u k (errF k) (hall k (by omega))
      ⟨by omega, hretry k (by omega)⟩]
    rw [ih (k + 1) (by omega)]
    simp [List.range'_succ]

theorem requestWithRetry_first_ok (rc : Nat) (t : String → Nat → FetchOut)
    (u : String) (errF : Nat → Thrown) (r : RespObj) :
    ∀ n k, k + n ≤ rc →
      (∀ j, k ≤ j → j < k + n → attemptOf t u j = .error (errF j)) →
      (∀ j, k ≤ j → j < k + n → shouldRetry (errF j) = true) →
      attemptOf t u (k + n) = .ok r →
      requestWithRetry rc t u k =
        (.ok r, (List.range' k (n + 1)).map (fun j => Ev.fetch u j)) := by
  intro n
  induction n with
  | zero =>
    intro k _ _ _ hok
    rw [requestWithRetry_ok rc t u k r (by simpa using hok)]
    simp [List.range']
  | succ n ih =>
    intro k hk hfail hretry hok
    rw [requestWithRetry_retry rc t u k (errF k) (hfail k le_rfl (by omega))
      ⟨by omega, hretry k le_rfl (by omega)⟩]
    have hok2 : attemptOf t u (k + 1 + n) = .ok r := by
      have he : k + 1 + n = k + (n + 1) := by omega
      rw [he]
      exact hok
    rw [ih (k + 1) (by omega) (fun j h1 h2 => hfail j (by omega) (by omega))
      (fun j h1 h2 => hretry j (by omega) (by omega)) hok2]
    simp [List.range'_succ]

/-! ### Data store lemmas -/

theorem setState_disjoint_append {α : Type} :
    ∀ (l acc : StrMap α), (∀ p ∈ l, mapGet acc p.1 = none) →
      (l.map Prod.fst).Nodup → setState acc l = acc ++ l := by
  intro l
  induction l with
  | nil => intro acc _ _; simp [setState]
  | cons p rest ih =>
    intro acc hdisj hnd
    obtain ⟨k, v⟩ := p
    have hstep : setState acc ((k, v) :: rest) = setState (mapSet acc k v) rest := rfl
    rw [hstep, mapSet_of_get_none acc k v (hdisj (k, v) (by simp))]
    have hnd1 : (k :: rest.map Prod.fst).Nodup := by simpa using hnd
    have hnd2 : (rest.map Prod.fst).Nodup := (List.nodup_cons.mp hnd1).2
    have hk : k ∉ rest.map Prod.fst := (List.nodup_cons.mp hnd1).1
    have hdisj2 : ∀ p ∈ rest, mapGet (acc ++ [(k, v)]) p.1 = none := by
      intro q hq
      rw [mapGet_append]
      rw [hdisj q (by simp [hq])]
      have hqk : k ≠ q.1 := by
        intro hEq
        exact hk (hEq ▸ List.mem_map_of_mem Prod.fst hq)
      simp [mapGet, hqk]
    rw [ih (acc ++ [(k, v)]) hdisj2 hnd2]
    simp

/-! ### Request pipeline lemmas -/

theorem cacheReadStep_of_cacheable (client : ClientCfg) (config : Config)
    (fullUrl : String) (cache : CacheMap) (now : Nat)
    (h : config.method = "GET" ∧ config.cache ≠ some false) :
    cacheReadStep client config fullUrl cache now =
      ((getCache cache (generateCacheKey fullUrl config) now client.cacheTimeout).1.join,
       (getCache cache (generateCacheKey fullUrl config) now client.cacheTimeout).2,
       [.cacheRead (generateCacheKey fullUrl config)]) := by
  unfold cacheReadStep
  rw [if_pos h]

theorem cacheReadStep_trace (client : ClientCfg) (config : Config)
    (fullUrl : String) (cache : CacheMap) (now : Nat) :
    (cacheReadStep client config fullUrl cache now).2.2 = [] ∨
    (cacheReadStep client config fullUrl cache now).2.2 =
      [.cacheRead (generateCacheKey fullUrl config)] := by
  unfold cacheReadStep
  split
  · right; rfl
  · left; rfl

theorem cacheWrite_not_mem_cacheReadStep (client : ClientCfg) (config : Config)
    (fullUrl : String) (cache : CacheMap) (now : Nat) (key : String) :
    Ev.cacheWrite key ∉ (cacheReadStep client config fullUrl cache now).2.2 := by
  rcases cacheReadStep_trace client config fullUrl cache now with h | h <;>
    rw [h] <;> simp

theorem cacheWrite_not_mem_retry (rc : Nat) (t : String → Nat → FetchOut)
    (u : String) (k : Nat) (key : String) :
    Ev.cacheWrite key ∉ (requestWithRetry rc t u k).2 := by
  intro hmem
  obtain ⟨j, hj⟩ := requestWithRetry_trace_fetches rc t u k _ hmem
  exact Ev.noConfusion hj

/-- On every failure outcome of `request`, no cache write occurs: the
only `setCache` call sits on the success branch after the response
interceptor chain succeeded. -/
theorem request_error_no_cacheWrite (client : ClientCfg)
    (reqInts : List (Interceptor Config Thrown))
    (respInts : List (Interceptor (Option ResultObj) Thrown))
    (transport : String → Nat → FetchOut) (url : String) (options : Options)
    (cache : CacheMap) (now : Nat) (e : Raised) (c2 : CacheMap) (tr2 : List Ev)
    (h : request client reqInts respInts transport url options cache now
      = (.error e, c2, tr2)) :
    ∀ key, Ev.cacheWrite key ∉ tr2 := by
  intro key hmem
  unfold request at h
  cases hch : processInterceptors reqInts (buildConfig client options) with
  | error e0 =>
    rw [hch] at h
    dsimp only at h
    have h3 := congrArg (fun p => p.2.2) h
    dsimp only at h3
    rw [← h3] at hmem
    simp at hmem
  | ok config =>
    rw [hch] at h
    dsimp only at h
    rcases hcr : cacheReadStep client config (resolveFullUrl client.baseURL url)
      cache now with ⟨o, c1, tr⟩
    rw [hcr] at h
    cases o with
    | some r =>
      dsimp only at h
      have h1 := congrArg (fun p => p.1) h
      dsimp only at h1
      exact Except.noConfusion h1
    | none =>
      dsimp only at h
      rcases hrr : requestWithRetry client.retryCount transport
        (resolveFullUrl client.baseURL url) 0 with ⟨res, ftr⟩
      rw [hrr] at h
      cases res with
      | error err =>
        dsimp only at h
        have h3 := congrArg (fun p => p.2.2) h
        dsimp only at h3
        rw [← h3] at hmem
        rcases List.mem_append.mp hmem with hm | hm
        · have hN := cacheWrite_not_mem_cacheReadStep client config
            (resolveFullUrl client.baseURL url) cache now key
          rw [hcr] at hN
          exact hN hm
        · have hN := cacheWrite_not_mem_retry client.retryCount transport
            (resolveFullUrl client.baseURL url) 0 key
          rw [hrr] at hN
          exact hN hm
      | ok response =>
        dsimp only at h
        cases hpi : processInterceptors respInts (some (mkResult response config)) with
        | error e2 =>
          rw [hpi] at h
          dsimp only at h
          have h3 := congrArg (fun p => p.2.2) h
          dsimp only at h3
          rw [← h3] at hmem
          rcases List.mem_append.mp hmem with hm | hm
          · have hN := cacheWrite_not_mem_cacheReadStep client config
              (resolveFullUrl client.baseURL url) cache now key
            rw [hcr] at hN
            exact hN hm
          · have hN := cacheWrite_not_mem_retry client.retryCount transport
              (resolveFullUrl client.baseURL url) 0 key
            rw [hrr] at hN
            exact hN hm
        | ok pr =>
          rw [hpi] at h
          dsimp only at h
          by_cases hcf : config.method = "GET" ∧ config.cache ≠ some false
          · rw [if_pos hcf] at h
            have h1 := congrArg (fun p => p.1) h
            dsimp only at h1
            exact Except.noConfusion h1
          · rw [if_neg hcf] at h
            have h1 := congrArg (fun p => p.1) h
            dsimp only at h1
            exact Except.noConfusion h1

/-- On a success outcome of a cacheable GET `request` that actually
dispatched (its trace holds a fetch event), the returned cache map
holds the processed result under the computed cache key, stamped with
the call's time. -/
theorem request_ok_cache_written (client : ClientCfg)
    (reqInts : List (Interceptor Config Thrown))
    (respInts : List (Interceptor (Option ResultObj) Thrown))
    (transport : String → Nat → FetchOut) (url : String) (options : Options)
    (cache : CacheMap) (now : Nat) (config : Config)
    (hch : processInterceptors reqInts (buildConfig client options) = .ok config)
    (hGET : config.method = "GET") (hc : config.cache ≠ some false)
    (d : Option ResultObj) (c2 : CacheMap) (tr2 : List Ev)
    (h : request client reqInts respInts transport url options cache now
      = (.ok d, c2, tr2))
    (hfetched : ∃ u0 k0, Ev.fetch u0 k0 ∈ tr2) :
    mapGet c2 (generateCacheKey (resolveFullUrl client.baseURL url) config)
      = some ⟨d, now⟩ := by
  unfold request at h
  rw [hch] at h
  dsimp only at h
  rcases hcr : cacheReadStep client config (resolveFullUrl client.baseURL url)
    cache now with ⟨o, c1, tr⟩
  rw [hcr] at h
  have htr := cacheReadStep_trace client config (resolveFullUrl client.baseURL url)
    cache now
  rw [hcr] at htr
  dsimp only at htr
  cases o with
  | some r =>
    dsimp only at h
    have h3 := congrArg (fun p => p.2.2) h
    dsimp only at h3
    obtain ⟨u0, k0, hm⟩ := hfetched
    rw [← h3] at hm
    rcases htr with htr | htr <;> rw [htr] at hm <;> simp at hm
  | none =>
    dsimp only at h
    rcases hrr : requestWithRetry client.retryCount transport
      (resolveFullUrl client.baseURL url) 0 with ⟨res, ftr⟩
    rw [hrr] at h
    cases res with
    | error err =>
      dsimp only at h
      have h1 := congrArg (fun p => p.1) h
      dsimp only at h1
      exact Except.noConfusion h1
    | ok response =>
      dsimp only at h
      cases hpi : processInterceptors respInts (some (mkResult response config)) with
      | error e2 =>
        rw [hpi] at h
        dsimp only at h
        have h1 := congrArg (fun p => p.1) h
        dsimp only at h1
        exact Except.noConfusion h1
      | ok pr =>
        rw [hpi] at h
        dsimp only at h
        rw [if_pos ⟨hGET, hc⟩] at h
        have h1 := congrArg (fun p => p.1) h
        dsimp only at h1
        have hd : pr = d := by
          injection h1
        have h2 := congrArg (fun p => p.2.1) h
        dsimp only at h2
        rw [← h2, ← hd]
        unfold setCache
        exact mapGet_mapSet_self c1 _ _

/-- Every event in a `request` trace is a fetch of the resolved full
URL or a cache read/write of the one cache key computed from the
resolved full URL and the post-chain config. -/
theorem request_trace_events (client : ClientCfg)
    (reqInts : List (Interceptor Config Thrown))
    (respInts : List (Interceptor (Option ResultObj) Thrown))
    (transport : String → Nat → FetchOut) (url : String) (options : Options)
    (cache : CacheMap) (now : Nat) (config : Config)
    (hch : processInterceptors reqInts (buildConfig client options) = .ok config) :
    ∀ ev ∈ (request client reqInts respInts transport url options cache now).2.2,
      (∃ j, ev = Ev.fetch (resolveFullUrl client.baseURL url) j) ∨
      ev = Ev.cacheRead (generateCacheKey (resolveFullUrl client.baseURL url) config) ∨
      ev = Ev.cacheWrite (generateCacheKey (resolveFullUrl client.baseURL url) config) := by
  intro ev hev
  unfold request at hev
  rw [hch] at hev
  dsimp only at hev
  rcases hcr : cacheReadStep client config (resolveFullUrl client.baseURL url)
    cache now with ⟨o, c1, tr⟩
  rw [hcr] at hev
  have htr := cacheReadStep_trace client config (resolveFullUrl client.baseURL url)
    cache now
  rw [hcr] at htr
  dsimp only at htr
  cases o with
  | some r =>
    dsimp only at hev
    rcases htr with htr | htr
    · rw [htr] at hev; simp at hev
    · rw [htr] at hev
      simp at hev
      right; left; exact hev
  | none =>
    dsimp only at hev
    rcases hrr : requestWithRetry client.retryCount transport
      (resolveFullUrl client.baseURL url) 0 with ⟨res, ftr⟩
    rw [hrr] at hev
    have hftr : ∀ e2 ∈ ftr, ∃ j, e2 = Ev.fetch (resolveFullUrl client.baseURL url) j := by
      have hh := requestWithRetry_trace_fetches client.retryCount transport
        (resolveFullUrl client.baseURL url) 0
      rw [hrr] at hh
      exact hh
    cases res with
    | error err =>
      dsimp only at hev
      rcases List.mem_append.mp hev with hm | hm
      · rcases htr with htr | htr
        · rw [htr] at hm; simp at hm
        · rw [htr] at hm; simp at hm; right; left; exact hm
      · left; exact hftr ev hm
    | ok response =>
      dsimp only at hev
      cases hpi : processInterceptors respInts (some (mkResult response config)) with
      | error e2 =>
        rw [hpi] at hev
        dsimp only at hev
        rcases List.mem_append.mp hev with hm | hm
        · rcases htr with htr | htr
          · rw [htr] at hm; simp at hm
          · rw [htr] at hm; simp at hm; right; left; exact hm
        · left; exact hftr ev hm
      | ok pr =>
        rw [hpi] at hev
        dsimp only at hev
        by_cases hcf : config.method = "GET" ∧ config.cache ≠ some false
        · rw [if_pos hcf] at hev
          dsimp only at hev
          rcases List.mem_append.mp hev with hm | hm
          · rcases List.mem_append.mp hm with hm2 | hm2
            · rcases htr with htr | htr
              · rw [htr] at hm2; simp at hm2
              · rw [htr] at hm2; simp at hm2; right; left; exact hm2
            · left; exact hftr ev hm2
          · simp at hm; right; right; exact hm
        · rw [if_neg hcf] at hev
          dsimp only at hev
          rcases List.mem_append.mp hev with hm | hm
          · rcases htr with htr | htr
            · rw [htr] at hm; simp at hm
            · rw [htr] at hm; simp at hm; right; left; exact hm
          · left; exact hftr ev hm

/-! ### Claim theorems -/

/-- C2: the claim says `shouldRetry` returns false for every status in
[400,500), in particular for 405 and 450 whose decimal text contains
the digit 5.  The code (lines 174-179) substring-matches the error
message for `'5'`, so a 405 failure is classified retryable and, with
budget remaining, is retried until the budget is exhausted: with
`retryCount = 3`, four attempts are dispatched for a 405 response. -/
theorem C2_digit5_in_4xx_status_is_retried :
    (400 ≤ 405 ∧ 405 < 500 ∧ 400 ≤ 450 ∧ 450 < 500) ∧
    shouldRetry (.errMsg ("HTTP " ++ toString 405 ++ ": Method Not Allowed")) = true ∧
    shouldRetry (.errMsg ("HTTP " ++ toString 450 ++ ": Blocked")) = true ∧
    requestWithRetry 3 c2transport405 "https://api/x" 0 =
      (.error (.errMsg "HTTP 405: Method Not Allowed"),
       [.fetch "https://api/x" 0, .fetch "https://api/x" 1,
        .fetch "https://api/x" 2, .fetch "https://api/x" 3]) := by
  refine ⟨by omega, rfl, rfl, rfl⟩

/-- C3, counterexample: a stage whose `fulfilled` throws and whose
`rejected` handler returns a substitute config does NOT resume the
chain — `throw await interceptor.rejected(error)` (line 64) throws the
handler's return value, so the chain never produces a success. -/
theorem C3_counterexample_no_recovery :
    processInterceptors [c3FailingStage] c3StartConfig
      = .error (.cfgVal c3SubstituteConfig) ∧
    ∀ c : Config, processInterceptors [c3FailingStage] c3StartConfig ≠ .ok c := by
  refine ⟨rfl, ?_⟩
  intro c h
  exact Except.noConfusion h

/-- C3, amended: when a stage's `fulfilled` throws after an arbitrary
successful chain run-up, the chain halts with the same stage's handler
output — the value the handler returns, or the error it throws — as the
propagated failure, regardless of the remaining stages; without a
handler the original error propagates.  No recovery/resumption occurs. -/
theorem C3_amended_handler_output_thrown {α ε : Type}
    (pre rest : List (Interceptor α ε)) (i : Interceptor α ε)
    (x0 x : α) (f : α → Except ε α) (e : ε)
    (hpre : processInterceptors pre x0 = .ok x)
    (hf : i.fulfilled = some f) (hx : f x = .error e) :
    processInterceptors (pre ++ i :: rest) x0 =
      .error (match i.rejected with
        | some r => (match r e with | .ok v => v | .error e2 => e2)
        | none => e) := by
  rw [processInterceptors_append, hpre]
  simp only [processInterceptors, hf]
  rw [hx]

/-- C3 amended, witness: the failing stage followed by a pass-through
stage halts with the substitute config thrown as the failure. -/
theorem C3_amended_witness :
    processInterceptors ([] ++ c3FailingStage :: [c3PassStage]) c3StartConfig
      = .error (.cfgVal c3SubstituteConfig) :=
  C3_amended_handler_output_thrown [] [c3PassStage] c3FailingStage
    c3StartConfig c3StartConfig (fun _ => .error (.errMsg "boom"))
    (.errMsg "boom") rfl rfl rfl

/-- C4: the claim says the dispatched header map merges the client's
defaults with the per-call headers, defaults preserved.  The code
builds that merge (lines 203-207) but the trailing `...options` spread
(line 208) replaces the `headers` property with the per-call map
whenever one is supplied, dropping every default (here `X-Api-Version`
and the `Content-Type` default). -/
theorem C4_default_headers_dropped :
    (buildConfig c4client c4options).headers = [("Accept", "text/plain")] ∧
    mapGet (buildConfig c4client c4options).headers "X-Api-Version" = none ∧
    mapGet (buildConfig c4client c4options).headers "Content-Type" = none ∧
    mapGet (specMergedHeaders c4client.headers [("Accept", "text/plain")])
      "X-Api-Version" = some "1" :=
  ⟨rfl, rfl, rfl, rfl⟩

/-- C5, counterexample: the claim says a lookup respects a per-request
TTL override when supplied.  With store TTL 5000, a per-request
override of 1000 and an entry of age 2000 (> override, < store TTL),
the lookup still returns the entry as a hit — `getCache` (lines
114-121) consults only `this.cacheTimeout`; no dispatch happens and
nothing is evicted. -/
theorem C5_counterexample_ttl_override_ignored :
    specApplicableTTL c5Client.cacheTimeout c5Options.cacheTimeout ≤ 2000 - 0 ∧
    (request c5Client [] [] (fun _ _ => .resp 200 "OK" [] "fresh")
      "/u" c5Options c5Cache 2000).1 = .ok (some c5CachedResult) ∧
    (request c5Client [] [] (fun _ _ => .resp 200 "OK" [] "fresh")
      "/u" c5Options c5Cache 2000).2.2 = [.cacheRead "GET:http://a/u:"] := by
  refine ⟨by decide, rfl, rfl⟩

/-- C5, amended: the TTL governing every lookup is the store's default
`cacheTimeout` (no per-request override exists in the code): an entry
younger than it is returned as a hit with the map untouched, an entry
at least as old is evicted and the lookup misses. -/
theorem C5_amended_store_ttl_governs (cache : CacheMap) (key : String)
    (now ttl : Nat) (e : CacheEntry) (hfound : mapGet cache key = some e) :
    (now - e.timestamp < ttl → getCache cache key now ttl = (some e.data, cache)) ∧
    (ttl ≤ now - e.timestamp → getCache cache key now ttl = (none, mapErase cache key)) := by
  constructor
  · intro h
    simp [getCache, hfound, h]
  · intro h
    rw [getCache, hfound]
    dsimp only
    rw [if_neg (by omega)]

/-- C5 amended, witness: a 2000 ms old entry hits under TTL 5000; a
6000 ms old entry is evicted and misses. -/
theorem C5_amended_store_ttl_witness :
    getCache [("k", ⟨some c5CachedResult, 0⟩)] "k" 2000 5000
      = (some (some c5CachedResult), [("k", ⟨some c5CachedResult, 0⟩)]) ∧
    getCache [("k", ⟨some c5CachedResult, 0⟩)] "k" 6000 5000 = (none, []) :=
  ⟨(C5_amended_store_ttl_governs [("k", ⟨some c5CachedResult, 0⟩)] "k" 2000 5000
      ⟨some c5CachedResult, 0⟩ rfl).1 (by decide),
   (C5_amended_store_ttl_governs [("k", ⟨some c5CachedResult, 0⟩)] "k" 6000 5000
      ⟨some c5CachedResult, 0⟩ rfl).2 (by decide)⟩

/-- C6, counterexample: two distinct plugin installations (different
options, hence different `HttpClient`s) mount the same module-level
`ssrDataStore` (line 366): a key written through the first
installation's store is observable through the second installation's
`get` and `has`. -/
theorem C6_counterexample_shared_store :
    (installPlugin {}).http ≠ (installPlugin { baseURL := some "/b" }).http ∧
    (installPlugin {}).ssrData = (installPlugin { baseURL := some "/b" }).ssrData ∧
    heapStoreGet
      (heapStoreSet (moduleHeap (α := String)) (installPlugin {}).ssrData "user" "42")
      (installPlugin { baseURL := some "/b" }).ssrData "user" = some "42" ∧
    heapStoreHas
      (heapStoreSet (moduleHeap (α := String)) (installPlugin {}).ssrData "user" "42")
      (installPlugin { baseURL := some "/b" }).ssrData "user" = true := by
  refine ⟨by decide, rfl, rfl, rfl⟩

/-- C6, amended: every plugin installation shares the single
module-level Data Store: for any two installations and any module store
state, both mount the same reference, and a key written through one is
observable through the other's `get` and `has`. -/
theorem C6_amended_module_singleton {α : Type} (o1 o2 : InstallOptions)
    (s : StrMap α) (k : String) (v : α) :
    (installPlugin o1).ssrData = (installPlugin o2).ssrData ∧
    heapStoreGet (heapStoreSet [s] (installPlugin o1).ssrData k v)
      (installPlugin o2).ssrData k = some v ∧
    heapStoreHas (heapStoreSet [s] (installPlugin o1).ssrData k v)
      (installPlugin o2).ssrData k = true := by
  refine ⟨rfl, ?_, ?_⟩
  · simp [heapStoreGet, heapStoreSet, installPlugin, ssrDataStoreRef,
      storeGet, storeSet, freshStore, mapGet_mapSet_self]
  · simp [heapStoreHas, heapStoreGet, heapStoreSet, installPlugin, ssrDataStoreRef,
      storeHas, storeGet, storeSet, freshStore, mapGet_mapSet_self]

/-- C9: serializing a producer store with `getState` and merging it
into a fresh consumer store with `setState` reproduces exactly the
producer's key/value pairs in insertion order (the `Map` invariant
being that keys are unique); and a colliding `set` resolves by
overwrite, last write wins. -/
theorem C9_hydration_roundtrip {α : Type} (producer : StrMap α)
    (s : StrMap α) (k : String) (v1 v2 : α) :
    ((producer.map Prod.fst).Nodup →
      setState freshStore (getState producer) = producer) ∧
    storeGet (storeSet (storeSet s k v1) k v2) k = some v2 := by
  constructor
  · intro hnd
    have h := setState_disjoint_append producer []
      (by intro p _; rfl) hnd
    simpa [getState, freshStore] using h
  · simp [storeGet, storeSet, mapGet_mapSet_self]

/-- C9, witness: a two-key producer round-trips exactly; a double write
to one key keeps the last value. -/
theorem C9_hydration_roundtrip_witness :
    setState freshStore (getState [("user", "a"), ("posts", "b")])
      = [("user", "a"), ("posts", "b")] ∧
    storeGet (storeSet (storeSet (freshStore (α := String)) "k" "x") "k" "y") "k"
      = some "y" :=
  ⟨(C9_hydration_roundtrip [("user", "a"), ("posts", "b")] freshStore "k" "x" "y").1
      (by decide),
   (C9_hydration_roundtrip [("user", "a"), ("posts", "b")] freshStore "k" "x" "y").2⟩

/-- C7: with every attempt failing retryably, exactly `retryCount`
extra attempts follow the first (the trace lists attempts 0 through
`rc`, i.e. `rc + 1` dispatches) and the last attempt's error is what
surfaces; and a call whose attempt `m < 1 + retryCount` is the first to
succeed returns that success after exactly `m + 1` dispatches — no
further attempts. -/
theorem C7_retry_budget (rc : Nat) (t : String → Nat → FetchOut) (u : String)
    (errF : Nat → Thrown) (m : Nat) (r : RespObj) :
    ((∀ j, j < rc + 1 → attemptOf t u j = .error (errF j)) →
     (∀ j, j < rc + 1 → shouldRetry (errF j) = true) →
     requestWithRetry rc t u 0 =
       (.error (errF rc), (List.range' 0 (rc + 1)).map (fun j => Ev.fetch u j))) ∧
    ((∀ j, j < m → attemptOf t u j = .error (errF j)) →
     (∀ j, j < m → shouldRetry (errF j) = true) →
     attemptOf t u m = .ok r → m < rc + 1 →
     requestWithRetry rc t u 0 =
       (.ok r, (List.range' 0 (m + 1)).map (fun j => Ev.fetch u j))) := by
  constructor
  · intro hall hretry
    exact requestWithRetry_all_fail rc t u errF
      (fun j hj => hall j (by omega)) (fun j hj => hretry j (by omega))
      rc 0 (by omega)
  · intro hfail hretry hok hm
    exact requestWithRetry_first_ok rc t u errF r m 0 (by omega)
      (fun j _ h2 => hfail j (by omega))
      (fun j _ h2 => hretry j (by omega))
      (by simpa using hok)

/-- C7, witness: with `retryCount = 3` a permanently failing 503
transport is dispatched exactly 4 times and surfaces the last 503
error; a transport recovering on attempt 2 is dispatched exactly 3
times and returns the success. -/
theorem C7_retry_budget_witness :
    requestWithRetry 3 c7transportFail "https://api/y" 0 =
      (.error (.errMsg "HTTP 503: Service Unavailable"),
       [.fetch "https://api/y" 0, .fetch "https://api/y" 1,
        .fetch "https://api/y" 2, .fetch "https://api/y" 3]) ∧
    requestWithRetry 3 c7transportRecover "https://api/y" 0 =
      (.ok c7okResp,
       [.fetch "https://api/y" 0, .fetch "https://api/y" 1,
        .fetch "https://api/y" 2]) := by
  constructor
  · have h := (C7_retry_budget 3 c7transportFail "https://api/y" c7errF 0 c7okResp).1
      (fun j _ => rfl) (fun j _ => rfl)
    exact h.trans (by rfl)
  · have h := (C7_retry_budget 3 c7transportRecover "https://api/y" c7errF 2 c7okResp).2
      (fun j hj => by interval_cases j <;> rfl)
      (fun j hj => by interval_cases j <;> rfl)
      rfl (by omega)
    exact h.trans (by rfl)

/-- C1: on the failure path the response interceptor chain is invoked
with `null`, never with the error (line 260 is
`processResponseInterceptors(null)`).  With the plugin's own default
response interceptor installed, a failing request surfaces a raw
`TypeError` from the interceptor's `null.status` read — not a
`NormalizedError` — and the interceptor's 401/403/5xx handling never
sees the real error.  Only with no response interceptors does the
`NormalizedError` of lines 265-270 reach the caller (third conjunct),
and even then the chain never received the error. -/
theorem C1_failure_chain_gets_null_not_error :
    (request c1client [] [defaultResponseInterceptor] c1transport404
      "/x" {} [] 1000).1
      = .error (.thrown (.typeError
          "Cannot read properties of null (reading 'status')")) ∧
    processInterceptors [defaultResponseInterceptor] (none : Option ResultObj)
      = .error (.typeError "Cannot read properties of null (reading 'status')") ∧
    (request c1client [] [] c1transport404 "/x" {} [] 1000).1
      = .error (.normalized
          { message := some "HTTP 404: Not Found", status := 0,
            config := { method := "GET",
                        headers := [("Content-Type", "application/json")] },
            originalError := .errMsg "HTTP 404: Not Found" }) :=
  ⟨rfl, rfl, rfl⟩

/-- C8: after a cacheable GET call (post-chain config is GET with
caching not disabled) that dispatched (its trace holds a fetch) and
succeeded with a truthy result, repeating the call against the
returned cache within the TTL window returns the same cached result,
leaves the cache map unchanged, and its trace is exactly one cache
read — no fetch (network and retry bypassed) and no cache write.
Second conjunct: on every failing outcome the trace holds no cache
write — the cache is written only after the full pipeline succeeds. -/
theorem C8_cached_get_hit_bypasses_dispatch (client : ClientCfg)
    (reqInts : List (Interceptor Config Thrown))
    (respInts : List (Interceptor (Option ResultObj) Thrown))
    (transport : String → Nat → FetchOut) (url : String) (options : Options)
    (cache : CacheMap) (t1 t2 : Nat) (config : Config) (res : ResultObj)
    (cache1 : CacheMap) (tr1 : List Ev)
    (hch : processInterceptors reqInts (buildConfig client options) = .ok config)
    (hGET : config.method = "GET") (hc : config.cache ≠ some false)
    (h1 : request client reqInts respInts transport url options cache t1
      = (.ok (some res), cache1, tr1))
    (hfetched : ∃ u0 k0, Ev.fetch u0 k0 ∈ tr1)
    (htime : t2 - t1 < client.cacheTimeout) :
    request client reqInts respInts transport url options cache1 t2
      = (.ok (some res), cache1,
         [.cacheRead (generateCacheKey (resolveFullUrl client.baseURL url) config)]) ∧
    (∀ e c2 tr2 cc tt,
      request client reqInts respInts transport url options cc tt
        = (.error e, c2, tr2) → ∀ key, Ev.cacheWrite key ∉ tr2) := by
  constructor
  · have hW := request_ok_cache_written client reqInts respInts transport url
      options cache t1 config hch hGET hc (some res) cache1 tr1 h1 hfetched
    have hK : getCache cache1
        (generateCacheKey (resolveFullUrl client.baseURL url) config) t2
        client.cacheTimeout = (some (some res), cache1) := by
      unfold getCache
      rw [hW]
      dsimp only
      rw [if_pos htime]
    have hcr : cacheReadStep client config (resolveFullUrl client.baseURL url)
        cache1 t2
        = (some res, cache1,
           [.cacheRead (generateCacheKey (resolveFullUrl client.baseURL url) config)]) := by
      rw [cacheReadStep_of_cacheable client config
        (resolveFullUrl client.baseURL url) cache1 t2 ⟨hGET, hc⟩, hK]
      rfl
    unfold request
    rw [hch]
    dsimp only
    rw [hcr]
  · intro e c2 tr2 cc tt hreq key
    exact request_error_no_cacheWrite client reqInts respInts transport url
      options cc tt e c2 tr2 hreq key

/-- C8, witness: with TTL 5000, the first call at time 100 misses,
dispatches once and caches; the repeat call at time 150 returns the
cached result with a single cache-read trace. -/
theorem C8_cached_get_hit_witness :
    request c8client [] [] c8transport "/u" {} c8cache1 150
      = (.ok (some c8res), c8cache1, [.cacheRead "GET:http://a/u:"]) :=
  (C8_cached_get_hit_bypasses_dispatch c8client [] [] c8transport "/u" {}
    [] 100 150 c8config c8res c8cache1
    [.cacheRead "GET:http://a/u:", .fetch "http://a/u" 0,
     .cacheWrite "GET:http://a/u:"]
    rfl rfl (by decide) rfl ⟨"http://a/u", 0, by simp⟩ (by decide)).1

/-- C10: the URL handed to the transport and the cache key are fixed by
the caller's original path (resolved against the base URL) before the
request interceptor chain runs: every fetch in the trace uses the
resolved full URL, every cache read/write uses the one key computed
from that URL, and rewriting the post-chain config's `url` field leaves
the cache key unchanged — `generateCacheKey` never reads it. -/
theorem C10_dispatch_url_and_key_fixed (client : ClientCfg)
    (reqInts : List (Interceptor Config Thrown))
    (respInts : List (Interceptor (Option ResultObj) Thrown))
    (transport : String → Nat → FetchOut) (url : String) (options : Options)
    (cache : CacheMap) (now : Nat) (config : Config)
    (hch : processInterceptors reqInts (buildConfig client options) = .ok config) :
    (∀ u0 k0, Ev.fetch u0 k0
        ∈ (request client reqInts respInts transport url options cache now).2.2 →
      u0 = resolveFullUrl client.baseURL url) ∧
    (∀ key, (Ev.cacheRead key
        ∈ (request client reqInts respInts transport url options cache now).2.2 ∨
      Ev.cacheWrite key
        ∈ (request client reqInts respInts transport url options cache now).2.2) →
      key = generateCacheKey (resolveFullUrl client.baseURL url) config) ∧
    (∀ v, generateCacheKey (resolveFullUrl client.baseURL url) { config with url := v }
      = generateCacheKey (resolveFullUrl client.baseURL url) config) := by
  refine ⟨?_, ?_, fun v => rfl⟩
  · intro u0 k0 hm
    rcases request_trace_events client reqInts respInts transport url options
      cache now config hch _ hm with ⟨j, hj⟩ | hj | hj
    · simp only [Ev.fetch.injEq] at hj
      exact hj.1
    · exact Ev.noConfusion hj
    · exact Ev.noConfusion hj
  · intro key hm
    rcases hm with hm | hm
    · rcases request_trace_events client reqInts respInts transport url options
        cache now config hch _ hm with ⟨j, hj⟩ | hj | hj
      · exact Ev.noConfusion hj
      · simp only [Ev.cacheRead.injEq] at hj
        exact hj
      · exact Ev.noConfusion hj
    · rcases request_trace_events client reqInts respInts transport url options
        cache now config hch _ hm with ⟨j, hj⟩ | hj | hj
      · exact Ev.noConfusion hj
      · exact Ev.noConfusion hj
      · simp only [Ev.cacheWrite.injEq] at hj
        exact hj

/-- C10, witness: with an interceptor that rewrites `config.url`, the
dispatched URL recorded in the trace is still the base-URL-resolved
original path, and the cache key in the trace is computed from it. -/
theorem C10_dispatch_url_and_key_witness :
    ("http://a/p" : String) = resolveFullUrl c10client.baseURL "/p" ∧
    ("GET:http://a/p:" : String)
      = generateCacheKey (resolveFullUrl c10client.baseURL "/p") c10cfgAfter :=
  ⟨(C10_dispatch_url_and_key_fixed c10client [c10urlRewriteStage] [] c8transport
      "/p" {} [] 5 c10cfgAfter rfl).1 "http://a/p" 0 (by decide),
   (C10_dispatch_url_and_key_fixed c10client [c10urlRewriteStage] [] c8transport
      "/p" {} [] 5 c10cfgAfter rfl).2.1 "GET:http://a/p:"
      (Or.inl (by decide))⟩

end SSRHttp
